import Mathlib

/-!
Shallow embedding of the student progression/scoring flow of the
scavenger-hunt application (`src/app.py`), covering the two submission
endpoints `submit_answer` (lines 602-733) and `submit_image`
(lines 735-862) together with the data model they read and mutate.

Modelling conventions:
* Python strings carrying answers/filenames are `List Char`; tokens and
  names are `String`.
* Python dicts (`attempts`, `marks`, the per-hunt progress map) are
  functions into `Option`, with absent keys mapped to `none`.
* `int(question.points * multiplier)` multiplies by a float in
  `{1.0, 0.5, 0.1, 0.0}` and truncates toward zero.  For the integer
  magnitudes a points column holds, the double products coincide with the
  exact rationals `p`, `p/2`, `p/10`, `0`, so the computation is embedded
  as truncating integer division (`Int.tdiv`).
* The database rows reachable from the two endpoints (`Question`, `Hunt`,
  the written `Submission`) are embedded as structures; ORM queries become
  `List.find?`/`List.filter` over the row lists.
-/

/-- A `Question` row (`src/app.py` lines 61-74); only the columns read by
the submission endpoints are kept. -/
structure Question where
  id : Nat
  hunt_id : Nat
  question_order : Nat
  question_type : String
  correct_answer : List Char
  hint : Option (List Char)
  next_location_hint : Option (List Char)
  qr_token : String
  points : Int
  image_filename : Option String
deriving DecidableEq

/-- A `Hunt` row (`src/app.py` lines 52-59); only `id` and `is_active`
are read by the flows under study. -/
structure Hunt where
  id : Nat
  is_active : Bool
deriving DecidableEq

/-- The relational store as seen by the two endpoints. -/
structure DB where
  hunts : List Hunt
  questions : List Question

/-- `Question.query.filter_by(qr_token=...).first()`. -/
def DB.findQuestion (db : DB) (tok : String) : Option Question :=
  db.questions.find? (fun q => q.qr_token == tok)

/-- `Hunt.query.get(hunt_id)`. -/
def DB.findHunt (db : DB) (hid : Nat) : Option Hunt :=
  db.hunts.find? (fun h => h.id == hid)

/-- `Question.query.filter_by(hunt_id=..., question_order=...).first()`. -/
def DB.findByOrder (db : DB) (hid : Nat) (ord : Nat) : Option Question :=
  db.questions.find? (fun q => q.hunt_id == hid && q.question_order == ord)

/-- `hunt.questions` (the relationship on lines 59). -/
def DB.huntQuestions (db : DB) (hid : Nat) : List Question :=
  db.questions.filter (fun q => q.hunt_id == hid)

/-- `sum([q.points for q in hunt.questions])` (line 702). -/
def DB.maxScore (db : DB) (hid : Nat) : Int :=
  ((db.huntQuestions hid).map (fun q => q.points)).sum

/-- `len(hunt.questions)` (line 701). -/
def DB.totalQuestions (db : DB) (hid : Nat) : Nat :=
  (db.huntQuestions hid).length

/-- Per-participant, per-hunt progress stored in the session
(`session['progress'][hunt_id_str]`, lines 626-634). -/
structure Progress where
  current_question : Nat
  score : Int
  completed_questions : List String
  attempts : String → Option Nat
  marks : String → Option Int

/-- The progress dict created lazily on first submission for a hunt
(lines 627-634 / 781-788): position starts at the submitted question's
own order, everything else empty. -/
def initProgress (ord : Nat) : Progress :=
  { current_question := ord
    score := 0
    completed_questions := []
    attempts := fun _ => none
    marks := fun _ => none }

/-- The session state read/written by the endpoints: the optional student
name and the per-hunt progress map. -/
structure Session where
  student_name : Option String
  progress : Nat → Option Progress

/-- Dict update `d[k] = v` for string-keyed dicts. -/
def setMap {α : Type} (m : String → Option α) (k : String) (v : α) :
    String → Option α :=
  fun k' => if k' = k then some v else m k'

/-- Dict update for the hunt-id-keyed progress map. -/
def setProg (m : Nat → Option Progress) (k : Nat) (v : Progress) :
    Nat → Option Progress :=
  fun k' => if k' = k then some v else m k'

/-- Python `str.lower()` on the ASCII range used by answers. -/
def pyLower (s : List Char) : List Char := s.map Char.toLower

/-- Python `str.strip()`: drop leading and trailing whitespace. -/
def pyStrip (s : List Char) : List Char :=
  ((s.dropWhile Char.isWhitespace).reverse.dropWhile Char.isWhitespace).reverse

/-- `answer.lower().strip()` (lines 659-661). -/
def normAnswer (s : List Char) : List Char := pyStrip (pyLower s)

/-- The correctness check of `submit_answer` (lines 657-664): normalized
equality for `multiple-choice` and `text`, always true for `image`,
false for any other kind (the `is_correct = False` initial value). -/
def checkCorrect (q : Question) (answer : List Char) : Bool :=
  if q.question_type = "multiple-choice" then
    normAnswer answer == normAnswer q.correct_answer
  else if q.question_type = "text" then
    normAnswer answer == normAnswer q.correct_answer
  else if q.question_type = "image" then
    true
  else
    false

/-- The attempt-decay award (lines 675-684):
`int(question.points * multiplier)` with multiplier 1.0 / 0.5 / 0.1 / 0.0
for attempt 1 / 2 / 3 / 4+, embedded as truncating division (see header
note on floats). -/
def decayedPoints (points : Int) (current_attempts : Nat) : Int :=
  if current_attempts = 1 then points
  else if current_attempts = 2 then points.tdiv 2
  else if current_attempts = 3 then points.tdiv 10
  else 0

/-- A `Submission` row written on completion (lines 76-85, 704-712). -/
structure Submission where
  hunt_id : Nat
  student_name : String
  total_score : Int
  max_score : Int
  completed_questions : Nat
  total_questions : Nat
  marks : String → Option Int

/-- The completion write of the terminal transition (lines 699-714 /
831-851): the `try` block builds and commits a `Submission` row from the
hunt row, the post-update progress and the session name.  The block runs
under `try/except`, so a missing hunt row silently writes nothing. -/
def completionRow (db : DB) (hid : Nat) (sname : Option String)
    (prog : Progress) : Option Submission :=
  match db.findHunt hid with
  | some hunt =>
    some { hunt_id := hunt.id
           student_name := sname.getD "Anonymous Student"
           total_score := prog.score
           max_score := db.maxScore hid
           completed_questions := prog.completed_questions.length
           total_questions := db.totalQuestions hid
           marks := prog.marks }
  | none => none

/-- The JSON body answered by `submit_answer` on its main path
(lines 719-731). -/
structure AnswerResponse where
  success : Bool
  correct : Bool
  points_earned : Int
  attempts : Nat
  total_score : Int
  hint : Option (List Char)
  next_location_hint : Option (List Char)
  next_qr_token : Option String
  has_next : Bool
  is_last_question : Bool
  has_completion_message : Bool
deriving DecidableEq

/-- The JSON body of the early return for an already-completed question
(lines 644-650). -/
structure AlreadyCompletedResponse where
  success : Bool
  correct : Bool
  points_earned : Int
  total_score : Int
deriving DecidableEq

/-- Outcome of a `submit_answer` call. -/
inductive AnswerOutcome where
  /-- 400: `not qr_token or answer is None` (lines 609-610). -/
  | missingFields
  /-- 404: unknown token (lines 616-618). -/
  | questionNotFound
  /-- Early success for an already-completed question (lines 643-650). -/
  | alreadyCompleted (r : AlreadyCompletedResponse)
  /-- The main-path response (lines 719-733). -/
  | answered (r : AnswerResponse)
deriving DecidableEq

/-- `POST /api/student/submit-answer` (`submit_answer`, lines 602-733).
Returns the HTTP outcome, the updated session, and the `Submission` row
written on the terminal transition (if any). -/
def submit_answer (db : DB) (sess : Session) (qr_token : Option String)
    (answer : Option (List Char)) (student_name : String) :
    AnswerOutcome × Session × Option Submission :=
  -- `if not qr_token or answer is None` (line 609): an absent or empty
  -- token and an absent answer are rejected.
  if (qr_token.getD "" == "") || answer.isNone then
    (.missingFields, sess, none)
  else
    let tok := qr_token.getD ""
    let ans := answer.getD []
    -- `if student_name and 'student_name' in session` (lines 613-614)
    let sname1 : Option String :=
      if student_name ≠ "" ∧ sess.student_name.isSome then some student_name
      else sess.student_name
    match db.findQuestion tok with
    | none => (.questionNotFound, { student_name := sname1, progress := sess.progress }, none)
    | some question =>
      -- lazily created progress (lines 622-640)
      let prog0 := (sess.progress question.hunt_id).getD (initProgress question.question_order)
      -- `if qr_token in progress.get('completed_questions', [])` (line 643)
      if prog0.completed_questions.contains tok then
        (.alreadyCompleted { success := true, correct := true, points_earned := 0,
                             total_score := prog0.score },
         { student_name := sname1, progress := sess.progress }, none)
      else
        -- `current_attempts = progress['attempts'].get(qr_token, 0) + 1` (653-654)
        let current_attempts := (prog0.attempts tok).getD 0 + 1
        let prog1 := { prog0 with attempts := setMap prog0.attempts tok current_attempts }
        let is_correct := checkCorrect question ans
        -- `points_earned = 0; if is_correct: if qr_token not in ...` (667-688)
        let points_earned : Int :=
          if is_correct && !(prog1.completed_questions.contains tok) then
            decayedPoints question.points current_attempts
          else 0
        let prog2 :=
          if is_correct && !(prog1.completed_questions.contains tok) then
            { prog1 with
              completed_questions := prog1.completed_questions ++ [tok]
              score := prog1.score + decayedPoints question.points current_attempts
              marks := setMap prog1.marks tok (decayedPoints question.points current_attempts)
              current_question := question.question_order + 1 }
          else prog1
        let sess2 : Session :=
          { student_name := sname1, progress := setProg sess.progress question.hunt_id prog2 }
        let next_question := db.findByOrder question.hunt_id (question.question_order + 1)
        -- `if is_correct and not next_question` (699-714)
        let submission : Option Submission :=
          if is_correct && next_question.isNone then
            completionRow db question.hunt_id sname1 prog2
          else none
        (.answered
          { success := true
            correct := is_correct
            points_earned := points_earned
            attempts := current_attempts
            total_score := prog2.score
            hint := if is_correct then none else question.hint
            next_location_hint := if is_correct then question.next_location_hint else none
            next_qr_token := next_question.map (fun q => q.qr_token)
            has_next := next_question.isSome
            is_last_question := next_question.isNone
            has_completion_message := next_question.isNone && is_correct },
         sess2, submission)

/-- Extension whitelist check of `submit_image` (lines 748-751):
`'.' in filename and filename.rsplit('.', 1)[1].lower() in allowed`. -/
def allowedExt (filename : List Char) : Bool :=
  filename.contains '.' &&
    ([ "png".toList, "jpg".toList, "jpeg".toList, "gif".toList ].contains
      (pyLower ((filename.reverse.takeWhile (fun c => !(c == '.'))).reverse)))

/-- `question.image_filename = unique_filename` (line 773) applied to the
row with the submitted token. -/
def imageUpdate (tok : String) (fn : String) (q : Question) : Question :=
  if q.qr_token = tok then { q with image_filename := some fn } else q

/-- The store after committing the artifact reference (lines 772-774). -/
def DB.setImage (db : DB) (tok : String) (fn : String) : DB :=
  { db with questions := db.questions.map (imageUpdate tok fn) }

/-- The JSON body answered by `submit_image` on success (lines 853-862). -/
structure ImageResponse where
  success : Bool
  correct : Bool
  points_earned : Int
  attempts : Nat
  image_url : String
  next_location_hint : Option (List Char)
  next_qr_token : Option String
  has_next : Bool
deriving DecidableEq

/-- Outcome of a `submit_image` call. -/
inductive ImageOutcome where
  /-- 400: `'image' not in request.files` (line 738). -/
  | noImage
  /-- 400: empty filename (line 744). -/
  | emptyFilename
  /-- 400: disallowed extension (line 750). -/
  | invalidType
  /-- 400: file larger than 5MB (line 757). -/
  | tooLarge
  /-- 404: unknown token (line 767). -/
  | questionNotFound
  /-- The success response (lines 853-862). -/
  | ok (r : ImageResponse)
deriving DecidableEq

/-- `POST /api/student/submit-image` (`submit_image`, lines 735-862).
`hasImage` stands for `'image' in request.files`; `filename` is the
(secured) upload filename; `freshName` stands for the generated
`uuid.uuid4()` prefix.  Returns the HTTP outcome, the updated session,
the `Submission` row written when the question is terminal, and the
store updated with the artifact reference. -/
def submit_image (db : DB) (sess : Session) (hasImage : Bool)
    (filename : List Char) (fileSize : Nat) (qr_token : Option String)
    (freshName : String) :
    ImageOutcome × Session × Option Submission × DB :=
  if !hasImage then (.noImage, sess, none, db)
  else if filename.isEmpty then (.emptyFilename, sess, none, db)
  else if !(allowedExt filename) then (.invalidType, sess, none, db)
  else if fileSize > 5 * 1024 * 1024 then (.tooLarge, sess, none, db)
  else
    match qr_token with
    | none => (.questionNotFound, sess, none, db)
    | some tok =>
      match db.findQuestion tok with
      | none => (.questionNotFound, sess, none, db)
      | some question =>
        -- `unique_filename = f"{uuid.uuid4()}_{filename}"` (line 761)
        let unique_filename := freshName ++ "_" ++ String.mk filename
        let db1 := db.setImage tok unique_filename
        -- progress init (lines 776-794), identical to submit_answer's
        let prog0 := (sess.progress question.hunt_id).getD (initProgress question.question_order)
        -- `current_attempts = progress['attempts'].get(qr_token, 0) + 1`
        -- (796-798): note there is no already-completed early return here.
        let current_attempts := (prog0.attempts tok).getD 0 + 1
        let prog1 := { prog0 with attempts := setMap prog0.attempts tok current_attempts }
        -- `points_earned = 0; if qr_token not in ...` (800-821): image
        -- submissions always count as correct.
        let points_earned : Int :=
          if !(prog1.completed_questions.contains tok) then
            decayedPoints question.points current_attempts
          else 0
        let prog2 :=
          if !(prog1.completed_questions.contains tok) then
            { prog1 with
              completed_questions := prog1.completed_questions ++ [tok]
              score := prog1.score + decayedPoints question.points current_attempts
              marks := setMap prog1.marks tok (decayedPoints question.points current_attempts)
              current_question := question.question_order + 1 }
          else prog1
        let sess2 : Session :=
          { student_name := sess.student_name
            progress := setProg sess.progress question.hunt_id prog2 }
        let next_question := db1.findByOrder question.hunt_id (question.question_order + 1)
        -- `if not next_question` (831-851): emission is unconditional on
        -- the terminal question, replay included.
        let submission : Option Submission :=
          if next_question.isNone then
            completionRow db1 question.hunt_id sess.student_name prog2
          else none
        (.ok
          { success := true
            correct := true
            points_earned := points_earned
            attempts := current_attempts
            image_url := "/static/uploads/" ++ unique_filename
            next_location_hint := question.next_location_hint
            next_qr_token := next_question.map (fun q => q.qr_token)
            has_next := next_question.isSome },
         sess2, submission, db1)


/-- The store with every hunt's activation flag set to `b`; used to state
that the submission endpoint never consults `is_active`. -/
def DB.setActiveAll (db : DB) (b : Bool) : DB :=
  { db with hunts := db.hunts.map (fun h => { h with is_active := b }) }

/-- Modelled from the spec (§4.1 / §8): the per-attempt point multiplier,
`decay(1)=1.0`, `decay(2)=0.5`, `decay(3)=0.1`, `decay(n)=0.0` for `n≥4`,
written as an exact rational. -/
def decay (n : Nat) : ℚ :=
  if n = 1 then 1 else if n = 2 then 1/2 else if n = 3 then 1/10 else 0

/-- One submission request, for reasoning about reachable session states:
either an answer submission or an image submission. -/
inductive HuntOp where
  | ans (qr_token : Option String) (answer : Option (List Char)) (student_name : String)
  | img (hasImage : Bool) (filename : List Char) (fileSize : Nat)
        (qr_token : Option String) (freshName : String)

/-- The session/store effect of one request. -/
def applyOp (db : DB) (sess : Session) : HuntOp → Session × DB
  | .ans tok ans name => ((submit_answer db sess tok ans name).2.1, db)
  | .img hi fn sz tok fresh =>
    let r := submit_image db sess hi fn sz tok fresh
    (r.2.1, r.2.2.2)

/-- Run a sequence of requests. -/
def runOps (db : DB) (sess : Session) : List HuntOp → Session × DB
  | [] => (sess, db)
  | op :: rest =>
    let r := applyOp db sess op
    runOps r.2 r.1 rest

/-- The §3 attempts-before-completion invariant on one progress record:
every token in the completed list or the marks domain has an attempts
entry of at least 1. -/
def ProgressInv (p : Progress) : Prop :=
  ∀ tok, (tok ∈ p.completed_questions ∨ (p.marks tok).isSome = true) →
    ∃ n, p.attempts tok = some n ∧ 1 ≤ n

/-- The invariant over every hunt's progress record in a session. -/
def SessionInv (s : Session) : Prop :=
  ∀ hid p, s.progress hid = some p → ProgressInv p

/-! ### Concrete instances used by counterexamples and witnesses -/

/-- A text question worth 10 points in hunt 1, answer `x`, token `t1`. -/
def qText : Question :=
  { id := 1, hunt_id := 1, question_order := 1, question_type := "text",
    correct_answer := ['x'], hint := some ['h'], next_location_hint := none,
    qr_token := "t1", points := 10, image_filename := none }

/-- A store whose only hunt is flagged inactive. -/
def dbInactive : DB :=
  { hunts := [{ id := 1, is_active := false }], questions := [qText] }

/-- A session with no progress at all. -/
def sessEmpty : Session := { student_name := none, progress := fun _ => none }

/-- An image question worth 10 points in hunt 1, token `t2`. -/
def qImage : Question :=
  { id := 2, hunt_id := 1, question_order := 1, question_type := "image",
    correct_answer := ['x'], hint := none, next_location_hint := none,
    qr_token := "t2", points := 10, image_filename := none }

/-- A store with one active hunt holding only the image question. -/
def dbImage : DB :=
  { hunts := [{ id := 1, is_active := true }], questions := [qImage] }

/-- A progress record that has already completed token `t2`. -/
def progDone : Progress :=
  { current_question := 2, score := 10, completed_questions := ["t2"],
    attempts := fun t => if t = "t2" then some 1 else none,
    marks := fun t => if t = "t2" then some 10 else none }

/-- A session whose hunt-1 progress has completed `t2`. -/
def sessDone : Session :=
  { student_name := none, progress := fun h => if h = 1 then some progDone else none }

/-- A progress record with one failed attempt on `t1`, nothing completed. -/
def progOneTry : Progress :=
  { current_question := 1, score := 0, completed_questions := [],
    attempts := fun t => if t = "t1" then some 1 else none,
    marks := fun _ => none }

/-- A session whose hunt-1 progress holds one failed attempt on `t1`. -/
def sessOneTry : Session :=
  { student_name := none, progress := fun h => if h = 1 then some progOneTry else none }

/-- First question (order 1, token `a1`) of the two-step hunt 5. -/
def qFirst : Question :=
  { id := 21, hunt_id := 5, question_order := 1, question_type := "text",
    correct_answer := ['u'], hint := none, next_location_hint := some ['n'],
    qr_token := "a1", points := 10, image_filename := none }

/-- Second and final question (order 2, token `a2`) of hunt 5. -/
def qLast : Question :=
  { id := 22, hunt_id := 5, question_order := 2, question_type := "text",
    correct_answer := ['v'], hint := none, next_location_hint := none,
    qr_token := "a2", points := 10, image_filename := none }

/-- A store with the two-step hunt 5 (dense positions 1 and 2). -/
def dbTwoStep : DB :=
  { hunts := [{ id := 5, is_active := true }], questions := [qFirst, qLast] }

/-! ### Effect of store transformations on the queries -/

theorem findQuestion_setActiveAll (db : DB) (b : Bool) (tok : String) :
    (db.setActiveAll b).findQuestion tok = db.findQuestion tok := rfl

theorem findByOrder_setActiveAll (db : DB) (b : Bool) (hid ord : Nat) :
    (db.setActiveAll b).findByOrder hid ord = db.findByOrder hid ord := rfl

theorem findHunt_setActiveAll (db : DB) (b : Bool) (hid : Nat) :
    (db.setActiveAll b).findHunt hid =
      (db.findHunt hid).map (fun h => { h with is_active := b }) := by
  unfold DB.findHunt DB.setActiveAll
  rw [List.find?_map]
  congr 1

theorem completionRow_setActiveAll (db : DB) (b : Bool) (hid : Nat)
    (s : Option String) (p : Progress) :
    completionRow (db.setActiveAll b) hid s p = completionRow db hid s p := by
  unfold completionRow
  rw [findHunt_setActiveAll]
  cases db.findHunt hid <;> rfl

theorem findHunt_setImage (db : DB) (tok fn : String) (hid : Nat) :
    (db.setImage tok fn).findHunt hid = db.findHunt hid := rfl

theorem findByOrder_setImage (db : DB) (tok fn : String) (hid k : Nat) :
    (db.setImage tok fn).findByOrder hid k =
      (db.findByOrder hid k).map (imageUpdate tok fn) := by
  unfold DB.findByOrder DB.setImage
  rw [List.find?_map]
  congr 2
  funext q
  unfold imageUpdate
  simp only [Function.comp_apply]
  split <;> rfl

theorem huntQuestions_setImage (db : DB) (tok fn : String) (hid : Nat) :
    (db.setImage tok fn).huntQuestions hid =
      (db.huntQuestions hid).map (imageUpdate tok fn) := by
  unfold DB.huntQuestions DB.setImage
  rw [List.filter_map]
  congr 2
  funext q
  unfold imageUpdate
  simp only [Function.comp_apply]
  split <;> rfl

theorem maxScore_setImage (db : DB) (tok fn : String) (hid : Nat) :
    (db.setImage tok fn).maxScore hid = db.maxScore hid := by
  unfold DB.maxScore
  rw [huntQuestions_setImage, List.map_map]
  have h : (fun (q : Question) => q.points) ∘ imageUpdate tok fn =
      fun (q : Question) => q.points := by
    funext q
    unfold imageUpdate
    simp only [Function.comp_apply]
    split <;> rfl
  rw [h]

theorem totalQuestions_setImage (db : DB) (tok fn : String) (hid : Nat) :
    (db.setImage tok fn).totalQuestions hid = db.totalQuestions hid := by
  unfold DB.totalQuestions
  rw [huntQuestions_setImage, List.length_map]

theorem completionRow_setImage (db : DB) (tok fn : String) (hid : Nat)
    (s : Option String) (p : Progress) :
    completionRow (db.setImage tok fn) hid s p = completionRow db hid s p := by
  unfold completionRow
  rw [findHunt_setImage, maxScore_setImage, totalQuestions_setImage]

/-! ### The decay schedule realises the spec's floor formula -/

theorem decayedPoints_eq_floor (p : Int) (hp : 0 ≤ p) (n : Nat) :
    decayedPoints p n = ⌊(p : ℚ) * decay n⌋ := by
  by_cases h1 : n = 1
  · subst h1
    show p = ⌊(p : ℚ) * 1⌋
    rw [mul_one, Int.floor_intCast]
  · by_cases h2 : n = 2
    · subst h2
      show p.tdiv 2 = ⌊(p : ℚ) * (1/2)⌋
      rw [Int.tdiv_eq_ediv hp (by norm_num)]
      rw [show ((p : ℚ) * (1/2)) = ((p : ℤ) : ℚ) / ((2 : ℕ) : ℚ) by push_cast; ring]
      rw [Rat.floor_intCast_div_natCast]
      norm_num
    · by_cases h3 : n = 3
      · subst h3
        show p.tdiv 10 = ⌊(p : ℚ) * (1/10)⌋
        rw [Int.tdiv_eq_ediv hp (by norm_num)]
        rw [show ((p : ℚ) * (1/10)) = ((p : ℤ) : ℚ) / ((10 : ℕ) : ℚ) by push_cast; ring]
        rw [Rat.floor_intCast_div_natCast]
        norm_num
      · unfold decayedPoints decay
        simp [h1, h2, h3]

/-- C4: replaying `submit_answer` with a token already in the completed
list returns success with `correct = true` and `points_earned = 0`, keeps
the whole progress map (hence score, completed, attempts, marks and
position) unchanged, and writes no Submission row, whatever the answer. -/
theorem C4_replay_no_mutation (db : DB) (sess : Session) (tok : String)
    (ans : List Char) (name : String) (q : Question) (p : Progress)
    (htok : ¬ tok = "") (hq : db.findQuestion tok = some q)
    (hp : sess.progress q.hunt_id = some p)
    (hc : p.completed_questions.contains tok = true) :
    (submit_answer db sess (some tok) (some ans) name).1 =
      .alreadyCompleted { success := true, correct := true,
                          points_earned := 0, total_score := p.score } ∧
    (submit_answer db sess (some tok) (some ans) name).2.1.progress = sess.progress ∧
    (submit_answer db sess (some tok) (some ans) name).2.2 = none := by
  have hmem : tok ∈ p.completed_questions := by simpa using hc
  unfold submit_answer
  simp [hq, hp, htok, hmem]

/-- C1 (amended): `submit_answer` never consults the hunts' activation
flags: its entire result is unchanged when every flag is rewritten. -/
theorem C1_no_activity_check (db : DB) (b : Bool) (sess : Session)
    (qr_token : Option String) (answer : Option (List Char)) (name : String) :
    submit_answer (db.setActiveAll b) sess qr_token answer name =
      submit_answer db sess qr_token answer name := by
  unfold submit_answer
  simp only [findQuestion_setActiveAll, findByOrder_setActiveAll,
    completionRow_setActiveAll]

/-- C1 counterexample: with the owning hunt flagged inactive,
`submit_answer` does not fail with any structured failure: it returns the
normal success response, mutates the progress map, and even writes a
Submission row. -/
theorem C1_counterexample :
    dbInactive.findHunt qText.hunt_id = some { id := 1, is_active := false } ∧
    dbInactive.findQuestion "t1" = some qText ∧
    (submit_answer dbInactive sessEmpty (some "t1") (some ['x']) "").1 =
      .answered { success := true, correct := true, points_earned := 10,
                  attempts := 1, total_score := 10, hint := none,
                  next_location_hint := none, next_qr_token := none,
                  has_next := false, is_last_question := true,
                  has_completion_message := true } ∧
    (submit_answer dbInactive sessEmpty (some "t1") (some ['x']) "").2.1.progress 1 ≠ none ∧
    ((submit_answer dbInactive sessEmpty (some "t1") (some ['x']) "").2.2).isSome = true := by
  refine ⟨by decide, by decide, by decide, ?_, by decide⟩
  intro h
  exact Option.noConfusion h

/-- C4 witness: the replay theorem applied to the concrete session that
has already completed token `t2`. -/
theorem C4_witness :
    (submit_answer dbImage sessDone (some "t2") (some []) "").1 =
      .alreadyCompleted { success := true, correct := true,
                          points_earned := 0, total_score := progDone.score } ∧
    (submit_answer dbImage sessDone (some "t2") (some []) "").2.1.progress = sessDone.progress ∧
    (submit_answer dbImage sessDone (some "t2") (some []) "").2.2 = none :=
  C4_replay_no_mutation dbImage sessDone "t2" [] "" qImage progDone
    (by decide) (by decide) (by rfl) (by decide)

/-- C5: a correct answer on a not-yet-completed step adds the token to the
completed list, adds the awarded points to the score, records
`marks[token] = points_earned`, and advances the position to the step's
order plus 1. -/
theorem C5_correct_completion (db : DB) (sess : Session) (tok : String)
    (ans : List Char) (name : String) (q : Question)
    (htok : ¬ tok = "") (hq : db.findQuestion tok = some q)
    (hnc : ((sess.progress q.hunt_id).getD (initProgress q.question_order)).completed_questions.contains tok = false)
    (hcor : checkCorrect q ans = true) :
    ∃ r p',
      (submit_answer db sess (some tok) (some ans) name).1 = .answered r ∧
      (submit_answer db sess (some tok) (some ans) name).2.1.progress q.hunt_id = some p' ∧
      r.correct = true ∧
      r.points_earned = decayedPoints q.points
        ((((sess.progress q.hunt_id).getD (initProgress q.question_order)).attempts tok).getD 0 + 1) ∧
      p'.completed_questions.contains tok = true ∧
      p'.score = ((sess.progress q.hunt_id).getD (initProgress q.question_order)).score + r.points_earned ∧
      p'.marks tok = some r.points_earned ∧
      p'.current_question = q.question_order + 1 := by
  have hnm : tok ∉ ((sess.progress q.hunt_id).getD (initProgress q.question_order)).completed_questions := by
    simpa using hnc
  unfold submit_answer
  simp [hq, htok, hnm, hcor, setProg, setMap]

/-- C3: a correct first-time completion on the n-th attempt awards
`floor(points * decay n)` under the spec's decay schedule. -/
theorem C3_decay_schedule (db : DB) (sess : Session) (tok : String)
    (ans : List Char) (name : String) (q : Question) (n : Nat)
    (htok : ¬ tok = "") (hq : db.findQuestion tok = some q)
    (hpts : 0 ≤ q.points) (hn : 1 ≤ n)
    (hatt : (((sess.progress q.hunt_id).getD (initProgress q.question_order)).attempts tok).getD 0 = n - 1)
    (hnc : ((sess.progress q.hunt_id).getD (initProgress q.question_order)).completed_questions.contains tok = false)
    (hcor : checkCorrect q ans = true) :
    decay 1 = 1 ∧ decay 2 = 1/2 ∧ decay 3 = 1/10 ∧
    (∀ m, 4 ≤ m → decay m = 0) ∧
    ∃ r, (submit_answer db sess (some tok) (some ans) name).1 = .answered r ∧
         r.attempts = n ∧
         r.points_earned = ⌊(q.points : ℚ) * decay n⌋ := by
  refine ⟨rfl, rfl, rfl, ?_, ?_⟩
  · intro m hm
    unfold decay
    rw [if_neg (by omega), if_neg (by omega), if_neg (by omega)]
  · have hmem : tok ∉ ((sess.progress q.hunt_id).getD (initProgress q.question_order)).completed_questions := by
      simpa using hnc
    have hn' : (((sess.progress q.hunt_id).getD (initProgress q.question_order)).attempts tok).getD 0 + 1 = n := by
      omega
    have hpe : decayedPoints q.points n = ⌊(q.points : ℚ) * decay n⌋ :=
      decayedPoints_eq_floor q.points hpts n
    unfold submit_answer
    simp [hq, htok, hmem, hcor, hn', hpe]

/-- C6: on an incorrect answer the only progress mutation is the attempt
counter of the submitted token going up by exactly 1 (from a default of
0); score, completed list, marks, position, the other tokens' attempts and
the other hunts' progress are untouched, no Submission is written, and the
response carries the step's hint and zero points. -/
theorem C6_incorrect_frame (db : DB) (sess : Session) (tok : String)
    (ans : List Char) (name : String) (q : Question) (p : Progress)
    (htok : ¬ tok = "") (hq : db.findQuestion tok = some q)
    (hp : sess.progress q.hunt_id = some p)
    (hnc : p.completed_questions.contains tok = false)
    (hcor : checkCorrect q ans = false) :
    ∃ r,
      (submit_answer db sess (some tok) (some ans) name).1 = .answered r ∧
      r.correct = false ∧ r.points_earned = 0 ∧ r.hint = q.hint ∧
      (submit_answer db sess (some tok) (some ans) name).2.2 = none ∧
      ∃ p',
        (submit_answer db sess (some tok) (some ans) name).2.1.progress q.hunt_id = some p' ∧
        p'.score = p.score ∧
        p'.completed_questions = p.completed_questions ∧
        p'.marks = p.marks ∧
        p'.current_question = p.current_question ∧
        p'.attempts tok = some ((p.attempts tok).getD 0 + 1) ∧
        (∀ t, ¬ t = tok → p'.attempts t = p.attempts t) ∧
        (∀ h, ¬ h = q.hunt_id →
          (submit_answer db sess (some tok) (some ans) name).2.1.progress h = sess.progress h) := by
  have hmem : tok ∉ p.completed_questions := by simpa using hnc
  unfold submit_answer
  simp [hq, htok, hp, hmem, hcor, setProg, setMap]
  exact ⟨fun t h1 h2 => absurd h2 h1, fun h h1 h2 => absurd h2 h1⟩

/-- C8: for `multiple-choice` and `text` steps the answer is evaluated as
correct exactly when the submitted answer and the stored answer agree
after lower-casing and whitespace-trimming both sides. -/
theorem C8_normalized_match (db : DB) (sess : Session) (tok : String)
    (ans : List Char) (name : String) (q : Question)
    (htok : ¬ tok = "") (hq : db.findQuestion tok = some q)
    (hnc : ((sess.progress q.hunt_id).getD (initProgress q.question_order)).completed_questions.contains tok = false)
    (hkind : q.question_type = "multiple-choice" ∨ q.question_type = "text") :
    ∃ r, (submit_answer db sess (some tok) (some ans) name).1 = .answered r ∧
      (r.correct = true ↔ pyStrip (pyLower ans) = pyStrip (pyLower q.correct_answer)) := by
  have hmem : tok ∉ ((sess.progress q.hunt_id).getD (initProgress q.question_order)).completed_questions := by
    simpa using hnc
  have hcc : checkCorrect q ans = (normAnswer ans == normAnswer q.correct_answer) := by
    unfold checkCorrect
    rcases hkind with h | h <;> simp [h]
  cases hb : normAnswer ans == normAnswer q.correct_answer with
  | true =>
    have hcor : checkCorrect q ans = true := by rw [hcc, hb]
    have heq : pyStrip (pyLower ans) = pyStrip (pyLower q.correct_answer) := by
      have h2 : normAnswer ans = normAnswer q.correct_answer := by simpa using hb
      simpa [normAnswer] using h2
    unfold submit_answer
    simp [hq, htok, hmem, hcor, heq]
  | false =>
    have hcor : checkCorrect q ans = false := by rw [hcc, hb]
    have hne : ¬ pyStrip (pyLower ans) = pyStrip (pyLower q.correct_answer) := by
      have h2 : ¬ normAnswer ans = normAnswer q.correct_answer := by simpa using hb
      simpa [normAnswer] using h2
    unfold submit_answer
    simp [hq, htok, hmem, hcor, hne]

/-- C2 counterexample: on a token already in the completed list the two
operations do NOT apply the same transition: the replay through
`submit_answer` leaves the attempt counter at 1 and writes no Submission,
while `submit_image` bumps the counter to 2 and re-emits a Submission row
for the terminal step. -/
theorem C2_counterexample :
    dbImage.findQuestion "t2" = some qImage ∧
    progDone.completed_questions.contains "t2" = true ∧
    (submit_answer dbImage sessDone (some "t2") (some []) "").2.2 = none ∧
    ((submit_image dbImage sessDone true ['a', '.', 'p', 'n', 'g'] 0 (some "t2") "u").2.2.1).isSome = true ∧
    (match (submit_image dbImage sessDone true ['a', '.', 'p', 'n', 'g'] 0 (some "t2") "u").2.1.progress 1 with
      | some p => p.attempts "t2" = some 2
      | none => False) ∧
    (match (submit_answer dbImage sessDone (some "t2") (some []) "").2.1.progress 1 with
      | some p => p.attempts "t2" = some 1
      | none => False) := by
  exact ⟨by decide, by decide, by rfl, by decide, by rfl, by rfl⟩

/-- C2 (amended): on a token NOT yet completed, `submit_image` applies
exactly the state transition of `submit_answer` with correctness forced
true (here realised by an image-kind step): the resulting sessions agree,
the written Submission rows agree, and the scoring and attempt counts of
the two responses agree. -/
theorem C2_fresh_equivalence (db : DB) (sess : Session) (tok : String)
    (ans fname : List Char) (size : Nat) (fresh : String) (q : Question)
    (htok : ¬ tok = "") (hq : db.findQuestion tok = some q)
    (himg : q.question_type = "image")
    (hnc : ((sess.progress q.hunt_id).getD (initProgress q.question_order)).completed_questions.contains tok = false)
    (hfn : ¬ fname.isEmpty = true) (hext : allowedExt fname = true)
    (hsz : ¬ size > 5 * 1024 * 1024) :
    (submit_image db sess true fname size (some tok) fresh).2.1 =
      (submit_answer db sess (some tok) (some ans) "").2.1 ∧
    (submit_image db sess true fname size (some tok) fresh).2.2.1 =
      (submit_answer db sess (some tok) (some ans) "").2.2 ∧
    ∃ ri ra,
      (submit_image db sess true fname size (some tok) fresh).1 = .ok ri ∧
      (submit_answer db sess (some tok) (some ans) "").1 = .answered ra ∧
      ri.points_earned = ra.points_earned ∧
      ri.attempts = ra.attempts ∧
      ra.correct = true := by
  have hcor : checkCorrect q ans = true := by
    unfold checkCorrect
    simp [himg]
  have hmem : tok ∉ ((sess.progress q.hunt_id).getD (initProgress q.question_order)).completed_questions := by
    simpa using hnc
  unfold submit_answer submit_image
  simp [hq, htok, hmem, hcor, hfn, hext, hsz, findByOrder_setImage,
    completionRow_setImage, setProg, setMap]

/-- C7: with dense positions 1..N, a Submission row is written exactly
when a correct answer is evaluated for the step of maximal position, and
the written snapshot carries the post-update progress score, completed
count, the hunt's total question count, the marks map and the session's
display name. -/
theorem C7_completion_emission (db : DB) (sess : Session) (tok : String)
    (ans : List Char) (name : String) (q : Question) (hunt : Hunt) (N : Nat)
    (htok : ¬ tok = "") (hq : db.findQuestion tok = some q)
    (hh : db.findHunt q.hunt_id = some hunt)
    (hnc : ((sess.progress q.hunt_id).getD (initProgress q.question_order)).completed_questions.contains tok = false)
    (hdense : ∀ k, (db.findByOrder q.hunt_id k).isSome = true ↔ (1 ≤ k ∧ k ≤ N)) :
    (((submit_answer db sess (some tok) (some ans) name).2.2).isSome = true ↔
      (checkCorrect q ans = true ∧ q.question_order = N)) ∧
    (∀ sub p',
      (submit_answer db sess (some tok) (some ans) name).2.2 = some sub →
      (submit_answer db sess (some tok) (some ans) name).2.1.progress q.hunt_id = some p' →
      sub.total_score = p'.score ∧
      sub.completed_questions = p'.completed_questions.length ∧
      sub.total_questions = db.totalQuestions q.hunt_id ∧
      sub.marks = p'.marks ∧
      sub.student_name =
        ((submit_answer db sess (some tok) (some ans) name).2.1.student_name).getD
          "Anonymous Student") := by
  have hmem : tok ∉ ((sess.progress q.hunt_id).getD (initProgress q.question_order)).completed_questions := by
    simpa using hnc
  have hq' : db.questions.find? (fun x => x.qr_token == tok) = some q := hq
  have hqm : q ∈ db.questions := List.mem_of_find?_eq_some hq'
  have hordS : (db.findByOrder q.hunt_id q.question_order).isSome = true := by
    unfold DB.findByOrder
    exact List.find?_isSome.mpr ⟨q, hqm, by simp⟩
  have hordUB : q.question_order ≤ N := ((hdense _).mp hordS).2
  have hnextIff : (db.findByOrder q.hunt_id (q.question_order + 1)).isSome = true ↔
      q.question_order + 1 ≤ N := by
    rw [hdense]
    omega
  by_cases hc : checkCorrect q ans = true
  · by_cases hN : q.question_order = N
    · have hnext : db.findByOrder q.hunt_id (q.question_order + 1) = none := by
        rw [← Option.not_isSome_iff_eq_none, hnextIff]
        omega
      subst hN
      unfold submit_answer
      simp [hq, htok, hmem, hc, hnext, setProg, completionRow, hh]
    · have hnextS : (db.findByOrder q.hunt_id (q.question_order + 1)).isSome = true := by
        rw [hnextIff]
        omega
      rcases Option.isSome_iff_exists.mp hnextS with ⟨nq, hnq⟩
      unfold submit_answer
      simp [hq, htok, hmem, hc, hN, hnq, setProg]
  · have hc' : checkCorrect q ans = false := by
      cases h : checkCorrect q ans
      · rfl
      · exact absurd h hc
    unfold submit_answer
    simp [hq, htok, hmem, hc', setProg]

/-- C10: with no pre-existing progress for the hunt, a submission
lazily creates a progress record positioned at the submitted step's own
order (score 0, empty completed/attempts/marks), so a participant can
enter mid-hunt; a correct answer to the terminal step alone then writes a
Submission whose completed count (1) is smaller than the hunt's total
question count. -/
theorem C10_lazy_entry (db : DB) (sess : Session) (tok : String)
    (ans : List Char) (name : String) (q : Question) (hunt : Hunt)
    (htok : ¬ tok = "") (hq : db.findQuestion tok = some q)
    (hh : db.findHunt q.hunt_id = some hunt)
    (hnone : sess.progress q.hunt_id = none)
    (hnext : db.findByOrder q.hunt_id (q.question_order + 1) = none)
    (htot : 2 ≤ db.totalQuestions q.hunt_id)
    (hcor : checkCorrect q ans = true) :
    (initProgress q.question_order).current_question = q.question_order ∧
    (initProgress q.question_order).score = 0 ∧
    (initProgress q.question_order).completed_questions = [] ∧
    (∀ t, (initProgress q.question_order).attempts t = none) ∧
    (∀ t, (initProgress q.question_order).marks t = none) ∧
    ∃ sub p',
      (submit_answer db sess (some tok) (some ans) name).2.2 = some sub ∧
      (submit_answer db sess (some tok) (some ans) name).2.1.progress q.hunt_id = some p' ∧
      p'.completed_questions = [tok] ∧
      p'.current_question = q.question_order + 1 ∧
      p'.score = decayedPoints q.points 1 ∧
      sub.completed_questions = 1 ∧
      sub.total_questions = db.totalQuestions q.hunt_id ∧
      sub.completed_questions < sub.total_questions := by
  refine ⟨rfl, rfl, rfl, fun t => rfl, fun t => rfl, ?_⟩
  unfold submit_answer
  simp [hq, htok, hnone, hcor, hnext, setProg, setMap, completionRow, hh, initProgress]
  omega

theorem progressInv_init (ord : Nat) : ProgressInv (initProgress ord) := by
  intro t ht
  rcases ht with ht | ht
  · simp [initProgress] at ht
  · simp [initProgress] at ht

theorem progressInv_getD (sess : Session) (hs : SessionInv sess) (hid ord : Nat) :
    ProgressInv ((sess.progress hid).getD (initProgress ord)) := by
  cases hp : sess.progress hid with
  | none => exact progressInv_init ord
  | some p => exact hs hid p hp

theorem progressInv_bump (p : Progress) (tok : String) (c : Nat) (hc : 1 ≤ c)
    (h : ProgressInv p) :
    ProgressInv { p with attempts := setMap p.attempts tok c } := by
  intro t ht
  by_cases he : t = tok
  · subst he
    exact ⟨c, by simp [setMap], hc⟩
  · rcases h t ht with ⟨n, hn, h1⟩
    exact ⟨n, by simpa [setMap, he] using hn, h1⟩

theorem progressInv_complete (p : Progress) (tok : String) (c : Nat) (pe : Int)
    (k : Nat) (hc : 1 ≤ c) (h : ProgressInv p) :
    ProgressInv { current_question := k
                  score := p.score + pe
                  completed_questions := p.completed_questions ++ [tok]
                  attempts := setMap p.attempts tok c
                  marks := setMap p.marks tok pe } := by
  intro t ht
  by_cases he : t = tok
  · subst he
    exact ⟨c, by simp [setMap], hc⟩
  · have ht' : t ∈ p.completed_questions ∨ (p.marks t).isSome = true := by
      rcases ht with ht | ht
      · rcases List.mem_append.mp ht with h1 | h1
        · exact Or.inl h1
        · simp at h1
          exact absurd h1 he
      · right
        simpa [setMap, he] using ht
    rcases h t ht' with ⟨n, hn, h1⟩
    exact ⟨n, by simpa [setMap, he] using hn, h1⟩

theorem sessionInv_same (sess : Session) (n : Option String) (hs : SessionInv sess) :
    SessionInv { student_name := n, progress := sess.progress } :=
  fun hid p hp => hs hid p hp

theorem sessionInv_setProg (sess : Session) (n : Option String) (hid : Nat)
    (p' : Progress) (hs : SessionInv sess) (hp' : ProgressInv p') :
    SessionInv { student_name := n, progress := setProg sess.progress hid p' } := by
  intro h p hp
  simp only [setProg] at hp
  by_cases he : h = hid
  · rw [if_pos he] at hp
    exact Option.some.inj hp ▸ hp'
  · rw [if_neg he] at hp
    exact hs h p hp

theorem sessionInv_submit_answer (db : DB) (sess : Session) (tokO : Option String)
    (ansO : Option (List Char)) (name : String) (hs : SessionInv sess) :
    SessionInv (submit_answer db sess tokO ansO name).2.1 := by
  by_cases h0 : ((tokO.getD "" == "") || ansO.isNone) = true
  · unfold submit_answer
    simp only [h0, if_true]
    exact hs
  · cases hfq : db.findQuestion (tokO.getD "") with
    | none =>
      unfold submit_answer
      simp [h0, hfq]
      exact sessionInv_same sess _ hs
    | some q =>
      by_cases hcon : tokO.getD "" ∈ ((sess.progress q.hunt_id).getD (initProgress q.question_order)).completed_questions
      · unfold submit_answer
        simp [h0, hfq, hcon]
        exact sessionInv_same sess _ hs
      · unfold submit_answer
        simp [h0, hfq, hcon]
        refine sessionInv_setProg sess _ _ _ hs ?_
        split <;> first
          | exact progressInv_complete _ _ _ _ _ (Nat.le_add_left 1 _)
              (progressInv_getD sess hs _ _)
          | exact progressInv_bump _ _ _ (Nat.le_add_left 1 _)
              (progressInv_getD sess hs _ _)

theorem sessionInv_submit_image (db : DB) (sess : Session) (hi : Bool)
    (fn : List Char) (sz : Nat) (tokO : Option String) (fresh : String)
    (hs : SessionInv sess) :
    SessionInv (submit_image db sess hi fn sz tokO fresh).2.1 := by
  by_cases g1 : hi = false
  · unfold submit_image
    simp [g1]
    exact hs
  · by_cases g2 : fn.isEmpty = true
    · unfold submit_image
      simp [g1, g2]
      intro hid p hp
      exact hs hid p hp
    · by_cases g3 : allowedExt fn = true
      swap
      · unfold submit_image
        simp [g1, g2, g3]
        intro hid p hp
        exact hs hid p hp
      · by_cases g4 : sz > 5 * 1024 * 1024
        · unfold submit_image
          simp [g1, g2, g3, g4]
          intro hid p hp
          exact hs hid p hp
        · cases tokO with
          | none =>
            unfold submit_image
            simp [g1, g2, g3, g4]
            intro hid p hp
            exact hs hid p hp
          | some tok =>
            cases hfq : db.findQuestion tok with
            | none =>
              unfold submit_image
              simp [g1, g2, g3, g4, hfq]
              intro hid p hp
              exact hs hid p hp
            | some q =>
              unfold submit_image
              simp [g1, g2, g3, g4, hfq]
              refine sessionInv_setProg sess _ _ _ hs ?_
              split <;> first
                | exact progressInv_complete _ _ _ _ _ (Nat.le_add_left 1 _)
                    (progressInv_getD sess hs _ _)
                | exact progressInv_bump _ _ _ (Nat.le_add_left 1 _)
                    (progressInv_getD sess hs _ _)

theorem sessionInv_applyOp (db : DB) (sess : Session) (op : HuntOp)
    (hs : SessionInv sess) : SessionInv (applyOp db sess op).1 := by
  cases op with
  | ans tokO ansO name => exact sessionInv_submit_answer db sess tokO ansO name hs
  | img hi fn sz tokO fresh => exact sessionInv_submit_image db sess hi fn sz tokO fresh hs

theorem sessionInv_runOps (ops : List HuntOp) : ∀ (db : DB) (sess : Session),
    SessionInv sess → SessionInv (runOps db sess ops).1 := by
  induction ops with
  | nil => intro db sess hs; exact hs
  | cons op rest ih =>
    intro db sess hs
    exact ih _ _ (sessionInv_applyOp db sess op hs)

/-- C9: in every session reachable from the empty session by any sequence
of answer and image submissions, every token in a progress record's
completed list or marks domain has an attempts entry of at least 1. -/
theorem C9_attempts_invariant (db : DB) (name : Option String) (ops : List HuntOp) :
    SessionInv (runOps db { student_name := name, progress := fun _ => none } ops).1 := by
  refine sessionInv_runOps ops db _ ?_
  intro hid p hp
  exact Option.noConfusion hp

/-- C2 witness: the fresh-token equivalence applied to the concrete image
question with an empty session. -/
theorem C2_witness :
    (submit_image dbImage sessEmpty true ['a', '.', 'p', 'n', 'g'] 0 (some "t2") "u").2.1 =
      (submit_answer dbImage sessEmpty (some "t2") (some []) "").2.1 ∧
    (submit_image dbImage sessEmpty true ['a', '.', 'p', 'n', 'g'] 0 (some "t2") "u").2.2.1 =
      (submit_answer dbImage sessEmpty (some "t2") (some []) "").2.2 ∧
    ∃ ri ra,
      (submit_image dbImage sessEmpty true ['a', '.', 'p', 'n', 'g'] 0 (some "t2") "u").1 = .ok ri ∧
      (submit_answer dbImage sessEmpty (some "t2") (some []) "").1 = .answered ra ∧
      ri.points_earned = ra.points_earned ∧
      ri.attempts = ra.attempts ∧
      ra.correct = true :=
  C2_fresh_equivalence dbImage sessEmpty "t2" [] ['a', '.', 'p', 'n', 'g'] 0 "u" qImage
    (by decide) (by decide) (by decide) (by decide) (by decide) (by decide) (by decide)

/-- C3 witness: the decay theorem applied to a second-attempt success on
the concrete text question. -/
theorem C3_witness :
    decay 1 = 1 ∧ decay 2 = 1/2 ∧ decay 3 = 1/10 ∧
    (∀ m, 4 ≤ m → decay m = 0) ∧
    ∃ r, (submit_answer dbInactive sessOneTry (some "t1") (some ['x']) "").1 = .answered r ∧
         r.attempts = 2 ∧
         r.points_earned = ⌊(qText.points : ℚ) * decay 2⌋ :=
  C3_decay_schedule dbInactive sessOneTry "t1" ['x'] "" qText 2
    (by decide) (by decide) (by decide) (by decide) (by decide) (by decide) (by decide)

/-- C5 witness: the correct-completion theorem applied to a first-try
success on the concrete text question. -/
theorem C5_witness :
    ∃ r p',
      (submit_answer dbInactive sessEmpty (some "t1") (some ['x']) "").1 = .answered r ∧
      (submit_answer dbInactive sessEmpty (some "t1") (some ['x']) "").2.1.progress qText.hunt_id = some p' ∧
      r.correct = true ∧
      r.points_earned = decayedPoints qText.points
        ((((sessEmpty.progress qText.hunt_id).getD (initProgress qText.question_order)).attempts "t1").getD 0 + 1) ∧
      p'.completed_questions.contains "t1" = true ∧
      p'.score = ((sessEmpty.progress qText.hunt_id).getD (initProgress qText.question_order)).score + r.points_earned ∧
      p'.marks "t1" = some r.points_earned ∧
      p'.current_question = qText.question_order + 1 :=
  C5_correct_completion dbInactive sessEmpty "t1" ['x'] "" qText
    (by decide) (by decide) (by decide) (by decide)

/-- C6 witness: the incorrect-answer frame theorem applied to a wrong
answer on the concrete text question with one failed attempt recorded. -/
theorem C6_witness :
    ∃ r,
      (submit_answer dbInactive sessOneTry (some "t1") (some ['y']) "").1 = .answered r ∧
      r.correct = false ∧ r.points_earned = 0 ∧ r.hint = qText.hint ∧
      (submit_answer dbInactive sessOneTry (some "t1") (some ['y']) "").2.2 = none ∧
      ∃ p',
        (submit_answer dbInactive sessOneTry (some "t1") (some ['y']) "").2.1.progress qText.hunt_id = some p' ∧
        p'.score = progOneTry.score ∧
        p'.completed_questions = progOneTry.completed_questions ∧
        p'.marks = progOneTry.marks ∧
        p'.current_question = progOneTry.current_question ∧
        p'.attempts "t1" = some ((progOneTry.attempts "t1").getD 0 + 1) ∧
        (∀ t, ¬ t = "t1" → p'.attempts t = progOneTry.attempts t) ∧
        (∀ h, ¬ h = qText.hunt_id →
          (submit_answer dbInactive sessOneTry (some "t1") (some ['y']) "").2.1.progress h =
            sessOneTry.progress h) :=
  C6_incorrect_frame dbInactive sessOneTry "t1" ['y'] "" qText progOneTry
    (by decide) (by decide) (by rfl) (by decide) (by decide)

/-- C7 witness: the emission theorem applied to the two-step hunt at its
terminal step. -/
theorem C7_witness :
    (((submit_answer dbTwoStep sessEmpty (some "a2") (some ['v']) "").2.2).isSome = true ↔
      (checkCorrect qLast ['v'] = true ∧ qLast.question_order = 2)) ∧
    (∀ sub p',
      (submit_answer dbTwoStep sessEmpty (some "a2") (some ['v']) "").2.2 = some sub →
      (submit_answer dbTwoStep sessEmpty (some "a2") (some ['v']) "").2.1.progress qLast.hunt_id = some p' →
      sub.total_score = p'.score ∧
      sub.completed_questions = p'.completed_questions.length ∧
      sub.total_questions = dbTwoStep.totalQuestions qLast.hunt_id ∧
      sub.marks = p'.marks ∧
      sub.student_name =
        ((submit_answer dbTwoStep sessEmpty (some "a2") (some ['v']) "").2.1.student_name).getD
          "Anonymous Student") :=
  C7_completion_emission dbTwoStep sessEmpty "a2" ['v'] "" qLast
    { id := 5, is_active := true } 2
    (by decide) (by decide) (by decide) (by decide)
    (by
      intro k
      rcases k with _ | _ | _ | m
      · decide
      · decide
      · decide
      · simp [DB.findByOrder, dbTwoStep, qFirst, qLast])

/-- C8 witness: the normalization theorem applied to the concrete text
question. -/
theorem C8_witness :
    ∃ r, (submit_answer dbInactive sessEmpty (some "t1") (some ['x', ' ']) "").1 = .answered r ∧
      (r.correct = true ↔
        pyStrip (pyLower ['x', ' ']) = pyStrip (pyLower qText.correct_answer)) :=
  C8_normalized_match dbInactive sessEmpty "t1" ['x', ' '] "" qText
    (by decide) (by decide) (by decide) (Or.inr (by decide))

/-- C10 witness: the lazy-entry theorem applied to the empty session and
the terminal step of the two-step hunt. -/
theorem C10_witness :
    (initProgress qLast.question_order).current_question = qLast.question_order ∧
    (initProgress qLast.question_order).score = 0 ∧
    (initProgress qLast.question_order).completed_questions = [] ∧
    (∀ t, (initProgress qLast.question_order).attempts t = none) ∧
    (∀ t, (initProgress qLast.question_order).marks t = none) ∧
    ∃ sub p',
      (submit_answer dbTwoStep sessEmpty (some "a2") (some ['v']) "").2.2 = some sub ∧
      (submit_answer dbTwoStep sessEmpty (some "a2") (some ['v']) "").2.1.progress qLast.hunt_id = some p' ∧
      p'.completed_questions = ["a2"] ∧
      p'.current_question = qLast.question_order + 1 ∧
      p'.score = decayedPoints qLast.points 1 ∧
      sub.completed_questions = 1 ∧
      sub.total_questions = dbTwoStep.totalQuestions qLast.hunt_id ∧
      sub.completed_questions < sub.total_questions :=
  C10_lazy_entry dbTwoStep sessEmpty "a2" ['v'] "" qLast { id := 5, is_active := true }
    (by decide) (by decide) (by decide) (by rfl) (by decide) (by decide) (by decide)
